import Mathlib

/-!
Verification of the GroceryApp FSM engine and foodbank source registry.

The definitions below are a shallow embedding of:
  * src/backend/app/fsm/engine.py        (Transition, AuditEntry, StateMachine)
  * src/backend/app/fsm/item_lifecycle.py (the item lifecycle machine)
  * src/backend/app/services/foodbank_sources.py (source registry)
  * src/backend/app/services/foodbank_service.py (scrape_and_update)

Conventions of the embedding:
  * Python `time.time()` is passed in explicitly as a `now : Nat` parameter
    at every point the code reads the clock.
  * A guard is a pure predicate `Ctx → Bool`; an action either returns
    normally (`Except.ok ()`) or raises (`Except.error msg`), mirroring a
    Python callable that may raise an exception.
  * The Firestore collections are association lists keyed by document id;
    `document(id).update(fields)` becomes `updateDocWith`, which rewrites
    the fields of the document with that id.
  * The outcome of the `httpx` network probe in `fetch_source` is an
    explicit input (`ProbeOutcome`): either a response with a status code
    or a raised exception.
-/

set_option autoImplicit false

namespace GroceryApp

/-! ### FSM engine (src/backend/app/fsm/engine.py) -/

/-- Embeds `Transition` from engine.py: a possible transition between
states, with optional guard and action callbacks. -/
structure Transition (Ctx : Type) where
  from_state : String
  to_state : String
  trigger : String
  guard : Option (Ctx → Bool) := none
  action : Option (Ctx → Except String Unit) := none
  description : String := ""

/-- Embeds `AuditEntry` from engine.py: record of a state transition. -/
structure AuditEntry (Ctx : Type) where
  from_state : String
  to_state : String
  trigger : String
  actor_id : String
  timestamp : Nat
  context : Ctx
deriving DecidableEq

/-- Embeds `StateMachine.__init__` fields: the machine owns its name,
states, initial state, the declared transition list and the audit log
(`_audit_log`, initially empty). -/
structure StateMachine (Ctx : Type) where
  name : String
  states : List String
  initial_state : String
  transitions : List (Transition Ctx)
  audit_log : List (AuditEntry Ctx) := []

/-- The dictionary key used by `_transition_map`. -/
def transitionKey {Ctx : Type} (t : Transition Ctx) : String × String :=
  (t.from_state, t.trigger)

/-- One step of building `_transition_map`:
`self._transition_map.setdefault(key, []).append(t)`. If the key is
already present its bucket is extended at the end, otherwise a new
singleton bucket is added. -/
def mapAppend {Ctx : Type} (m : List ((String × String) × List (Transition Ctx)))
    (key : String × String) (t : Transition Ctx) :
    List ((String × String) × List (Transition Ctx)) :=
  match m with
  | [] => [(key, [t])]
  | (k, ts) :: rest =>
      if k == key then (k, ts ++ [t]) :: rest else (k, ts) :: mapAppend rest key t

/-- Embeds the `for t in transitions: ... setdefault ... append` loop of
`StateMachine.__init__`. -/
def buildTransitionMap {Ctx : Type} (ts : List (Transition Ctx)) :
    List ((String × String) × List (Transition Ctx)) :=
  ts.foldl (fun m t => mapAppend m (transitionKey t) t) []

/-- Embeds `self._transition_map.get(key, [])`. -/
def mapGet {Ctx : Type} (m : List ((String × String) × List (Transition Ctx)))
    (key : String × String) : List (Transition Ctx) :=
  (m.lookup key).getD []

/-- Error message `f"No transition '{trigger}' from state '{current_state}'"`. -/
def noTransitionMsg (trigger current_state : String) : String :=
  "No transition \x27" ++ trigger ++ "\x27 from state \x27" ++ current_state ++ "\x27"

/-- Error message `f"Guard conditions not met for trigger '{trigger}'"`. -/
def guardNotMetMsg (trigger : String) : String :=
  "Guard conditions not met for trigger \x27" ++ trigger ++ "\x27"

/-- Error message `f"Action failed: {e}"`. -/
def actionFailedMsg (e : String) : String :=
  "Action failed: " ++ e

/-- The tuple `(success, new_state_or_current, error_message_or_none)`
returned by `attempt_transition`. -/
structure AttemptResult where
  success : Bool
  state : String
  error : Option String
deriving DecidableEq

/-- Intermediate result of the candidate loop: the returned triple plus
the audit entry appended by the loop body, if any. -/
structure StepResult (Ctx : Type) where
  success : Bool
  state : String
  error : Option String
  entry : Option (AuditEntry Ctx)

/-- The body of the candidate loop of `attempt_transition` once a
candidate's guard has passed (or it has no guard): run the action if
present — an exception aborts the attempt with an action error — then
build the audit entry and succeed with the candidate's `to_state`. -/
def applyCandidate {Ctx : Type} (current trigger actor_id : String) (now : Nat)
    (context : Ctx) (t : Transition Ctx) : StepResult Ctx :=
  match t.action with
  | some act =>
      match act context with
      | .error e => ⟨false, current, some (actionFailedMsg e), none⟩
      | .ok _ =>
          ⟨true, t.to_state, none,
            some ⟨current, t.to_state, trigger, actor_id, now, context⟩⟩
  | none =>
      ⟨true, t.to_state, none,
        some ⟨current, t.to_state, trigger, actor_id, now, context⟩⟩

/-- The `for transition in candidates` loop of `attempt_transition`:
skip candidates whose guard is present and fails; at the first remaining
candidate run `applyCandidate`; if the loop ends, fail with the guard
error. -/
def runCandidates {Ctx : Type} (current trigger actor_id : String) (now : Nat)
    (context : Ctx) : List (Transition Ctx) → StepResult Ctx
  | [] => ⟨false, current, some (guardNotMetMsg trigger), none⟩
  | t :: rest =>
      match t.guard with
      | some g =>
          if g context then applyCandidate current trigger actor_id now context t
          else runCandidates current trigger actor_id now context rest
      | none => applyCandidate current trigger actor_id now context t

/-- Embeds `StateMachine.attempt_transition`. Returns the result triple
and the machine with its (possibly extended) audit log. -/
def StateMachine.attempt_transition {Ctx : Type} (m : StateMachine Ctx)
    (current_state trigger actor_id : String) (context : Ctx) (now : Nat) :
    AttemptResult × StateMachine Ctx :=
  let candidates := mapGet (buildTransitionMap m.transitions) (current_state, trigger)
  if candidates.isEmpty then
    (⟨false, current_state, some (noTransitionMsg trigger current_state)⟩, m)
  else
    let r := runCandidates current_state trigger actor_id now context candidates
    (⟨r.success, r.state, r.error⟩,
      match r.entry with
      | some e => { m with audit_log := m.audit_log ++ [e] }
      | none => m)

/-! ### Item lifecycle machine (src/backend/app/fsm/item_lifecycle.py) -/

/-- The context dictionary: in the workflows of this repository it maps
string keys to string values (`ctx.get("reason")` etc.). -/
abbrev RCtx := List (String × String)

/-- Embeds the `item_lifecycle` StateMachine instance. The guards embed
`lambda ctx: ctx.get("reason") == "used_up"` (resp. `"discarded"`):
`dict.get` yields `None` when the key is absent, which compares unequal
to any string. -/
def item_lifecycle : StateMachine RCtx where
  name := "item_lifecycle"
  states := ["scanned", "active", "consumed", "expired", "discarded"]
  initial_state := "scanned"
  transitions := [
    { from_state := "scanned", to_state := "active", trigger := "promote",
      description := "User confirms item into inventory" },
    { from_state := "scanned", to_state := "scanned", trigger := "discard_scan",
      description := "User discards scan" },
    { from_state := "active", to_state := "consumed", trigger := "consume",
      guard := some (fun ctx => ctx.lookup "reason" == some "used_up"),
      description := "Item used up normally" },
    { from_state := "active", to_state := "expired", trigger := "expire",
      description := "Item reached expiry date" },
    { from_state := "active", to_state := "discarded", trigger := "discard",
      guard := some (fun ctx => ctx.lookup "reason" == some "discarded"),
      description := "User discards item" },
    { from_state := "consumed", to_state := "active", trigger := "restore",
      description := "Restore consumed item back to active" },
    { from_state := "expired", to_state := "active", trigger := "restore",
      description := "Restore expired item back to active" },
    { from_state := "discarded", to_state := "active", trigger := "restore",
      description := "Restore discarded item back to active" }
  ]
  audit_log := []

/-! ### Transition-map lemmas: the bucket of a key holds exactly the
declared transitions with that key, in declaration order. -/

lemma mapGet_mapAppend {Ctx : Type}
    (m : List ((String × String) × List (Transition Ctx)))
    (k k' : String × String) (t : Transition Ctx) :
    mapGet (mapAppend m k t) k' = mapGet m k' ++ (if k == k' then [t] else []) := by
  induction m with
  | nil =>
      by_cases h : k = k'
      · subst h; simp [mapAppend, mapGet, List.lookup]
      · have h1 : (k == k') = false := by simpa using h
        have h2 : (k' == k) = false := by simpa using Ne.symm h
        simp [mapAppend, mapGet, List.lookup, h1, h2]
  | cons p rest ih =>
      obtain ⟨k₀, ts₀⟩ := p
      by_cases h₀ : k₀ = k
      · subst h₀
        by_cases h' : k₀ = k'
        · subst h'; simp [mapAppend, mapGet, List.lookup]
        · have h1 : (k₀ == k') = false := by simpa using h'
          have h2 : (k' == k₀) = false := by simpa using Ne.symm h'
          simp [mapAppend, mapGet, List.lookup, h1, h2]
      · have hne : (k₀ == k) = false := by simpa using h₀
        by_cases h' : k₀ = k'
        · subst h'
          have h2 : (k == k₀) = false := by simpa using Ne.symm h₀
          simp [mapAppend, mapGet, List.lookup, hne, h2]
        · have h1 : (k₀ == k') = false := by simpa using h'
          have h2 : (k' == k₀) = false := by simpa using Ne.symm h'
          simp [mapAppend, mapGet, List.lookup, hne, h1, h2] at ih ⊢
          exact ih

lemma mapGet_foldl {Ctx : Type} (ts : List (Transition Ctx)) :
    ∀ (m : List ((String × String) × List (Transition Ctx))) (k : String × String),
      mapGet (ts.foldl (fun acc t => mapAppend acc (transitionKey t) t) m) k
        = mapGet m k ++ ts.filter (fun t => transitionKey t == k) := by
  induction ts with
  | nil => intro m k; simp
  | cons t rest ih =>
      intro m k
      simp only [List.foldl_cons, List.filter_cons]
      rw [ih, mapGet_mapAppend]
      by_cases h : transitionKey t == k <;> simp [h]

/-- The `_transition_map` bucket at `key` is exactly the sublist of the
declared transitions whose `(from_state, trigger)` equals `key`, in
declaration order. -/
lemma mapGet_buildTransitionMap {Ctx : Type} (ts : List (Transition Ctx))
    (k : String × String) :
    mapGet (buildTransitionMap ts) k = ts.filter (fun t => transitionKey t == k) := by
  have h := mapGet_foldl ts [] k
  simpa [buildTransitionMap, mapGet, List.lookup] using h

/-! ### Claim C1 -/

/-- C1: if no transition of the machine has `(from_state, trigger)`
equal to `(s, t)`, then `attempt_transition` returns `success = false`,
the unchanged input state, the no-transition error message, and leaves
the machine (in particular its audit log) unchanged. -/
theorem attempt_transition_no_candidates {Ctx : Type} (m : StateMachine Ctx)
    (s t actor_id : String) (ctx : Ctx) (now : Nat)
    (h : ∀ tr ∈ m.transitions, ¬(tr.from_state = s ∧ tr.trigger = t)) :
    m.attempt_transition s t actor_id ctx now
      = (⟨false, s, some (noTransitionMsg t s)⟩, m) := by
  have hfilter : m.transitions.filter (fun tr => transitionKey tr == (s, t)) = [] := by
    rw [List.filter_eq_nil_iff]
    intro tr htr
    have := h tr htr
    simp only [transitionKey, Prod.mk.injEq, beq_iff_eq, Prod.ext_iff]
    exact fun hc => this ⟨hc.1, hc.2⟩
  unfold StateMachine.attempt_transition
  rw [mapGet_buildTransitionMap, hfilter]
  simp

/-- Witness for C1: the item-lifecycle machine has no transition keyed
`("consumed", "consume")`, and the call fails with the no-transition
error leaving the machine unchanged. -/
theorem attempt_transition_no_candidates_witness :
    (∀ tr ∈ item_lifecycle.transitions,
        ¬(tr.from_state = "consumed" ∧ tr.trigger = "consume")) ∧
    item_lifecycle.attempt_transition "consumed" "consume" "user1" [] 0
      = (⟨false, "consumed", some (noTransitionMsg "consume" "consumed")⟩, item_lifecycle) :=
  ⟨by decide,
   attempt_transition_no_candidates item_lifecycle "consumed" "consume" "user1" [] 0 (by decide)⟩

/-! ### Claim C2 -/

/-- C2: on the item-lifecycle machine, `consume` from `"active"` with a
context lacking `"reason"` fails with the guard error and the state is
unchanged, while with `reason = "used_up"` it succeeds and yields
`"consumed"`. -/
theorem item_lifecycle_consume_guard :
    (item_lifecycle.attempt_transition "active" "consume" "user1" [] 0).1
        = ⟨false, "active", some (guardNotMetMsg "consume")⟩ ∧
    (item_lifecycle.attempt_transition "active" "consume" "user1"
        [("reason", "used_up")] 0).1
        = ⟨true, "consumed", none⟩ := by
  constructor <;> rfl

/-! ### Candidate-loop lemmas -/

/-- Once reached, a candidate either succeeds with its `to_state` and an
audit entry, or its action raised and the step fails on the unchanged
state with an action error and no entry. -/
lemma applyCandidate_spec {Ctx : Type} (s t a : String) (now : Nat) (ctx : Ctx)
    (tr : Transition Ctx) :
    (applyCandidate s t a now ctx tr
        = ⟨true, tr.to_state, none, some ⟨s, tr.to_state, t, a, now, ctx⟩⟩)
    ∨ (∃ e, applyCandidate s t a now ctx tr
        = ⟨false, s, some (actionFailedMsg e), none⟩) := by
  cases hact : tr.action with
  | none => left; simp [applyCandidate, hact]
  | some act =>
      cases hr : act ctx with
      | error e => right; exact ⟨e, by simp [applyCandidate, hact, hr]⟩
      | ok u => left; cases u; simp [applyCandidate, hact, hr]

/-- The candidate loop succeeds exactly when it records an audit entry
whose `from_state` is the input state and whose `to_state` is the
returned state; on failure it records nothing and returns the input
state. -/
lemma runCandidates_spec {Ctx : Type} (s t a : String) (now : Nat) (ctx : Ctx) :
    ∀ cs : List (Transition Ctx),
      ((runCandidates s t a now ctx cs).success = true →
        (runCandidates s t a now ctx cs).entry
          = some ⟨s, (runCandidates s t a now ctx cs).state, t, a, now, ctx⟩) ∧
      ((runCandidates s t a now ctx cs).success = false →
        (runCandidates s t a now ctx cs).entry = none ∧
        (runCandidates s t a now ctx cs).state = s) := by
  intro cs
  induction cs with
  | nil => simp [runCandidates]
  | cons tr rest ih =>
      have happ :
          ((applyCandidate s t a now ctx tr).success = true →
            (applyCandidate s t a now ctx tr).entry
              = some ⟨s, (applyCandidate s t a now ctx tr).state, t, a, now, ctx⟩) ∧
          ((applyCandidate s t a now ctx tr).success = false →
            (applyCandidate s t a now ctx tr).entry = none ∧
            (applyCandidate s t a now ctx tr).state = s) := by
        rcases applyCandidate_spec s t a now ctx tr with h | ⟨e, h⟩ <;> rw [h] <;> simp
      cases hg : tr.guard with
      | none => simpa [runCandidates, hg] using happ
      | some g =>
          cases hgv : g ctx with
          | true => simpa [runCandidates, hg, hgv] using happ
          | false => simpa [runCandidates, hg, hgv] using ih

/-- Candidates whose guard is present and fails are skipped by the loop. -/
lemma runCandidates_skip {Ctx : Type} (s t a : String) (now : Nat) (ctx : Ctx) :
    ∀ (pre cs : List (Transition Ctx)),
      (∀ p ∈ pre, ∃ g, p.guard = some g ∧ g ctx = false) →
      runCandidates s t a now ctx (pre ++ cs) = runCandidates s t a now ctx cs := by
  intro pre
  induction pre with
  | nil => intro cs _; rfl
  | cons p rest ih =>
      intro cs h
      obtain ⟨g, hg, hgv⟩ := h p (by simp)
      have := ih cs (fun q hq => h q (by simp [hq]))
      simpa [runCandidates, hg, hgv] using this

/-- A candidate whose guard passes (or is absent) is the one applied. -/
lemma runCandidates_pass {Ctx : Type} (s t a : String) (now : Nat) (ctx : Ctx)
    (tr : Transition Ctx) (rest : List (Transition Ctx))
    (hg : tr.guard = none ∨ ∃ g, tr.guard = some g ∧ g ctx = true) :
    runCandidates s t a now ctx (tr :: rest) = applyCandidate s t a now ctx tr := by
  rcases hg with hg | ⟨g, hg, hgv⟩ <;> simp [runCandidates, hg]
  simp [hgv]

/-- When there is at least one candidate, `attempt_transition` returns
the loop result and appends its entry (if any) to the audit log. -/
lemma attempt_transition_run {Ctx : Type} (m : StateMachine Ctx)
    (s t a : String) (ctx : Ctx) (now : Nat) (cs : List (Transition Ctx))
    (hcs : m.transitions.filter (fun x => transitionKey x == (s, t)) = cs)
    (hne : cs ≠ []) :
    m.attempt_transition s t a ctx now
      = (⟨(runCandidates s t a now ctx cs).success,
          (runCandidates s t a now ctx cs).state,
          (runCandidates s t a now ctx cs).error⟩,
        match (runCandidates s t a now ctx cs).entry with
        | some e => { m with audit_log := m.audit_log ++ [e] }
        | none => m) := by
  have hmap : mapGet (buildTransitionMap m.transitions) (s, t) = cs :=
    (mapGet_buildTransitionMap _ _).trans hcs
  have hemp : cs.isEmpty = false := by
    cases cs with
    | nil => exact absurd rfl hne
    | cons x xs => rfl
  unfold StateMachine.attempt_transition
  simp only [hmap, hemp, Bool.false_eq_true, if_false]

/-- The two outcomes of `attempt_transition`: on success the machine
gains exactly the audit entry `(s, returned state, t, a, now, ctx)`; on
failure the machine is unchanged and the returned state is the input
state. -/
lemma attempt_transition_cases {Ctx : Type} (m : StateMachine Ctx)
    (s t a : String) (ctx : Ctx) (now : Nat) :
    ((m.attempt_transition s t a ctx now).1.success = true ∧
     (m.attempt_transition s t a ctx now).2
       = { m with audit_log := m.audit_log
            ++ [⟨s, (m.attempt_transition s t a ctx now).1.state, t, a, now, ctx⟩] })
    ∨ ((m.attempt_transition s t a ctx now).1.success = false ∧
       (m.attempt_transition s t a ctx now).2 = m ∧
       (m.attempt_transition s t a ctx now).1.state = s) := by
  cases hcs : m.transitions.filter (fun x => transitionKey x == (s, t)) with
  | nil =>
      right
      have h : ∀ tr ∈ m.transitions, ¬(tr.from_state = s ∧ tr.trigger = t) := by
        intro tr htr hc
        have hmem : tr ∈ m.transitions.filter (fun x => transitionKey x == (s, t)) := by
          rw [List.mem_filter]
          exact ⟨htr, by simp [transitionKey, hc.1, hc.2]⟩
        rw [hcs] at hmem
        exact absurd hmem (List.not_mem_nil tr)
      rw [attempt_transition_no_candidates m s t a ctx now h]
      exact ⟨rfl, rfl, rfl⟩
  | cons c cs' =>
      rw [attempt_transition_run m s t a ctx now (c :: cs') hcs (by simp)]
      obtain ⟨h1, h2⟩ := runCandidates_spec s t a now ctx (c :: cs')
      cases hsucc : (runCandidates s t a now ctx (c :: cs')).success with
      | true =>
          left
          rw [h1 hsucc]
          exact ⟨rfl, rfl⟩
      | false =>
          right
          obtain ⟨he, hst⟩ := h2 hsucc
          rw [he]
          exact ⟨rfl, rfl, hst⟩

/-! ### Claim C3 -/

/-- C3: if the first candidate whose guard passes has an action that
raises, `attempt_transition` fails with the action-error message, the
returned state is the unchanged input state, and the machine — in
particular its audit log — is exactly as before the call; the candidates
after it are never reached (the result does not depend on `post`). -/
theorem attempt_transition_action_failure {Ctx : Type} (m : StateMachine Ctx)
    (s t a : String) (ctx : Ctx) (now : Nat)
    (pre post : List (Transition Ctx)) (tr : Transition Ctx)
    (act : Ctx → Except String Unit) (e : String)
    (hc : m.transitions.filter (fun x => transitionKey x == (s, t)) = pre ++ tr :: post)
    (hpre : ∀ p ∈ pre, ∃ g, p.guard = some g ∧ g ctx = false)
    (hg : tr.guard = none ∨ ∃ g, tr.guard = some g ∧ g ctx = true)
    (hact : tr.action = some act) (herr : act ctx = Except.error e) :
    m.attempt_transition s t a ctx now = (⟨false, s, some (actionFailedMsg e)⟩, m) := by
  have hrun : runCandidates s t a now ctx (pre ++ tr :: post)
      = ⟨false, s, some (actionFailedMsg e), none⟩ := by
    rw [runCandidates_skip s t a now ctx pre (tr :: post) hpre,
        runCandidates_pass s t a now ctx tr post hg]
    simp [applyCandidate, hact, herr]
  rw [attempt_transition_run m s t a ctx now (pre ++ tr :: post) hc (by simp)]
  rw [hrun]

/-- A transition whose action always raises, used to exercise the
action-failure path. -/
def boom_action_tr : Transition RCtx :=
  { from_state := "a", to_state := "b", trigger := "go",
    action := some (fun _ => Except.error "boom") }

/-- A machine with a single transition whose action raises. -/
def boom_machine : StateMachine RCtx :=
  { name := "boom", states := ["a", "b"], initial_state := "a",
    transitions := [boom_action_tr], audit_log := [] }

/-- Witness for C3: on `boom_machine` the attempt fails with the action
error and the machine, audit log included, is unchanged. -/
theorem attempt_transition_action_failure_witness :
    boom_machine.transitions.filter (fun x => transitionKey x == ("a", "go"))
        = [] ++ boom_action_tr :: [] ∧
    boom_machine.attempt_transition "a" "go" "u" [] 0
        = (⟨false, "a", some (actionFailedMsg "boom")⟩, boom_machine) :=
  ⟨rfl,
   attempt_transition_action_failure boom_machine "a" "go" "u" [] 0 [] []
     boom_action_tr (fun _ => Except.error "boom") "boom" rfl (by simp)
     (Or.inl rfl) rfl rfl⟩

/-! ### Claim C4 -/

/-- C4: a successful `attempt_transition` call grows the audit log by
exactly one entry, recording the input state as `from_state`, the
returned (selected) state as `to_state`, the trigger, the actor, the
timestamp and the context; a failed call leaves the audit log
unchanged. -/
theorem attempt_transition_audit_growth {Ctx : Type} (m : StateMachine Ctx)
    (s t a : String) (ctx : Ctx) (now : Nat) :
    ((m.attempt_transition s t a ctx now).1.success = true ∧
     (m.attempt_transition s t a ctx now).2.audit_log
       = m.audit_log ++ [⟨s, (m.attempt_transition s t a ctx now).1.state, t, a, now, ctx⟩])
    ∨ ((m.attempt_transition s t a ctx now).1.success = false ∧
       (m.attempt_transition s t a ctx now).2.audit_log = m.audit_log) := by
  rcases attempt_transition_cases m s t a ctx now with ⟨h1, h2⟩ | ⟨h1, h2, _⟩
  · left; exact ⟨h1, by rw [h2]⟩
  · right; exact ⟨h1, by rw [h2]⟩

/-! ### Claim C5 -/

/-- C5: candidates sharing `(from_state, trigger)` are kept in
declaration order (the filtered sublist of the declared transition
list), and the applied transition is the first whose guard passes or is
absent: its `to_state` is returned and audited, while the result does
not depend on the actions of the guard-failing candidates before it nor
on any candidate after it. -/
theorem attempt_transition_first_passing {Ctx : Type} (m : StateMachine Ctx)
    (s t a : String) (ctx : Ctx) (now : Nat)
    (pre post : List (Transition Ctx)) (tr : Transition Ctx)
    (hc : m.transitions.filter (fun x => transitionKey x == (s, t)) = pre ++ tr :: post)
    (hpre : ∀ p ∈ pre, ∃ g, p.guard = some g ∧ g ctx = false)
    (hg : tr.guard = none ∨ ∃ g, tr.guard = some g ∧ g ctx = true)
    (hact : tr.action = none ∨ ∃ act, tr.action = some act ∧ act ctx = Except.ok ()) :
    (m.attempt_transition s t a ctx now).1 = ⟨true, tr.to_state, none⟩ ∧
    (m.attempt_transition s t a ctx now).2
      = { m with audit_log := m.audit_log ++ [⟨s, tr.to_state, t, a, now, ctx⟩] } := by
  have hrun : runCandidates s t a now ctx (pre ++ tr :: post)
      = ⟨true, tr.to_state, none, some ⟨s, tr.to_state, t, a, now, ctx⟩⟩ := by
    rw [runCandidates_skip s t a now ctx pre (tr :: post) hpre,
        runCandidates_pass s t a now ctx tr post hg]
    rcases hact with hact | ⟨act, hact, hok⟩
    · simp [applyCandidate, hact]
    · simp [applyCandidate, hact, hok]
  rw [attempt_transition_run m s t a ctx now (pre ++ tr :: post) hc (by simp)]
  rw [hrun]
  exact ⟨rfl, rfl⟩

/-- First candidate for the tie-break test: its guard always fails. -/
def pick_tr1 : Transition RCtx :=
  { from_state := "a", to_state := "b", trigger := "go",
    guard := some (fun _ => false) }

/-- Second candidate for the tie-break test: its guard always passes. -/
def pick_tr2 : Transition RCtx :=
  { from_state := "a", to_state := "c", trigger := "go",
    guard := some (fun _ => true) }

/-- A machine with two candidates for `("a", "go")`, declared in order. -/
def pick_machine : StateMachine RCtx :=
  { name := "pick", states := ["a", "b", "c"], initial_state := "a",
    transitions := [pick_tr1, pick_tr2], audit_log := [] }

/-- Witness for C5: with two candidates for the same key, the first has
a failing guard and is skipped, so the second is applied. -/
theorem attempt_transition_first_passing_witness :
    pick_machine.transitions.filter (fun x => transitionKey x == ("a", "go"))
        = [pick_tr1] ++ pick_tr2 :: [] ∧
    (pick_machine.attempt_transition "a" "go" "u" [] 0).1
        = ⟨true, pick_tr2.to_state, none⟩ ∧
    (pick_machine.attempt_transition "a" "go" "u" [] 0).2
        = { pick_machine with
              audit_log := pick_machine.audit_log ++ [⟨"a", pick_tr2.to_state, "go", "u", 0, []⟩] } :=
  ⟨rfl,
   (attempt_transition_first_passing pick_machine "a" "go" "u" [] 0 [pick_tr1] []
      pick_tr2 rfl
      (by
        intro p hp
        have hp' : p = pick_tr1 := by simpa using hp
        subst hp'
        exact ⟨fun _ => false, rfl, rfl⟩)
      (Or.inr ⟨fun _ => true, rfl, rfl⟩) (Or.inl rfl)).1,
   (attempt_transition_first_passing pick_machine "a" "go" "u" [] 0 [pick_tr1] []
      pick_tr2 rfl
      (by
        intro p hp
        have hp' : p = pick_tr1 := by simpa using hp
        subst hp'
        exact ⟨fun _ => false, rfl, rfl⟩)
      (Or.inr ⟨fun _ => true, rfl, rfl⟩) (Or.inl rfl)).2⟩

/-! ### Claim C6 -/

/-- One call in a sequence of `attempt_transition` calls for a single
entity: the trigger, actor, context and clock reading of the call. -/
structure Request (Ctx : Type) where
  trigger : String
  actor_id : String
  context : Ctx
  now : Nat

/-- Threads an entity through a sequence of `attempt_transition` calls,
as a caller would: each call receives the state observed after the
previous one (on success the returned `to_state`, on failure the
unchanged state). -/
def runRequests {Ctx : Type} (m : StateMachine Ctx) (s : String) :
    List (Request Ctx) → String × StateMachine Ctx
  | [] => (s, m)
  | r :: rs =>
      let step := m.attempt_transition s r.trigger r.actor_id r.context r.now
      runRequests step.2 step.1.state rs

/-- Replays an audit log from a starting state by taking each entry's
`to_state` in sequence. -/
def replayAudit {Ctx : Type} (s : String) (log : List (AuditEntry Ctx)) : String :=
  log.foldl (fun _ e => e.to_state) s

lemma runRequests_replay {Ctx : Type} (init : String) :
    ∀ (rs : List (Request Ctx)) (m : StateMachine Ctx) (s : String),
      s = replayAudit init m.audit_log →
      (runRequests m s rs).1 = replayAudit init (runRequests m s rs).2.audit_log := by
  intro rs
  induction rs with
  | nil => intro m s h; simpa [runRequests] using h
  | cons r rest ih =>
      intro m s h
      rcases attempt_transition_cases m s r.trigger r.actor_id r.context r.now with
        ⟨_, hm⟩ | ⟨_, hm, hst⟩
      · simp only [runRequests]
        apply ih
        rw [hm]
        simp [replayAudit]
      · simp only [runRequests]
        apply ih
        rw [hm, hst, h]

/-- C6: for a machine whose audit log starts empty, threading any
sequence of `attempt_transition` calls from `initial_state` gives a
final state equal to the replay of the machine's audit log, taking each
entry's `to_state` in order starting from `initial_state`. -/
theorem audit_replay_roundtrip {Ctx : Type} (m : StateMachine Ctx)
    (rs : List (Request Ctx)) (h : m.audit_log = []) :
    (runRequests m m.initial_state rs).1
      = replayAudit m.initial_state (runRequests m m.initial_state rs).2.audit_log :=
  runRequests_replay m.initial_state rs m m.initial_state (by rw [h]; rfl)

/-- Witness for C6: a concrete two-call sequence on the item-lifecycle
machine (promote the scan, then consume with a reason). -/
theorem audit_replay_roundtrip_witness :
    item_lifecycle.audit_log = [] ∧
    (runRequests item_lifecycle item_lifecycle.initial_state
        [⟨"promote", "u", [], 0⟩, ⟨"consume", "u", [("reason", "used_up")], 1⟩]).1
      = replayAudit item_lifecycle.initial_state
          (runRequests item_lifecycle item_lifecycle.initial_state
            [⟨"promote", "u", [], 0⟩, ⟨"consume", "u", [("reason", "used_up")], 1⟩]).2.audit_log :=
  ⟨rfl,
   audit_replay_roundtrip item_lifecycle
     [⟨"promote", "u", [], 0⟩, ⟨"consume", "u", [("reason", "used_up")], 1⟩] rfl⟩

/-! ### Foodbank source registry (src/backend/app/services/foodbank_sources.py)

A source document of the Firestore `foodbank_sources` collection. The
collection itself is an association list keyed by document id; the
`foodbanks` collection is reduced to the fields touched by
`_refresh_source_entries`. -/

/-- One document of the `foodbank_sources` collection. -/
structure SourceRec where
  name : String
  url : String
  country : String
  status : String
  last_success : Option Nat
  last_error : Option Nat
  error_message : Option String
  cooldown_until : Option Nat
  cooldown_hours : Option Nat
  created_at : Option Nat
deriving DecidableEq

/-- One document of the `foodbanks` collection, reduced to the fields
read and written by `_refresh_source_entries`. -/
structure Foodbank where
  source_name : String
  last_refreshed : Option Nat
  updated_at : Option Nat
deriving DecidableEq

/-- The Firestore state seen by the registry. -/
structure DB where
  sources : List (String × SourceRec)
  foodbanks : List Foodbank
deriving DecidableEq

/-- `DEFAULT_COOLDOWN_HOURS = 6`. -/
def DEFAULT_COOLDOWN_HOURS : Nat := 6

/-- `BUILTIN_SOURCES`: `(id, name, url, country)` of the seeded sources. -/
def BUILTIN_SOURCES : List (String × String × String × String) :=
  [("yfbm", "Yayasan Food Bank Malaysia", "https://www.yfbm.org.my", "MY"),
   ("foodaid", "Food Aid Foundation", "https://www.foodaidfoundation.org", "MY"),
   ("lostfood", "The Lost Food Project", "https://www.thelostfoodproject.org", "MY"),
   ("kechara", "Kechara Soup Kitchen", "https://www.thesoupkitchen.org.my", "MY")]

/-- `db.collection(...).document(id).set(rec)`: overwrite the document
with that id, creating it if absent. -/
def setDoc (store : List (String × SourceRec)) (id : String) (rec : SourceRec) :
    List (String × SourceRec) :=
  if store.any (fun p => p.1 == id) then
    store.map (fun p => if p.1 == id then (p.1, rec) else p)
  else store ++ [(id, rec)]

/-- `db.collection(...).document(id).update(fields)`: rewrite the fields
of the document with that id (all update calls in foodbank_sources.py
target an existing document). -/
def updateDocWith (store : List (String × SourceRec)) (id : String)
    (f : SourceRec → SourceRec) : List (String × SourceRec) :=
  store.map (fun p => (p.1, if p.1 == id then f p.2 else p.2))

/-- The document a builtin source is seeded with (`_seed_builtin_sources`). -/
def seedRecord (name url country : String) (now : Nat) : SourceRec :=
  { name := name, url := url, country := country, status := "healthy",
    last_success := none, last_error := none, error_message := none,
    cooldown_until := none, cooldown_hours := some DEFAULT_COOLDOWN_HOURS,
    created_at := some now }

/-- Embeds `_seed_builtin_sources`. -/
def seed_builtin_sources (db : DB) (now : Nat) : DB :=
  let seeded := BUILTIN_SOURCES.foldl
    (fun st b => setDoc st b.1 (seedRecord b.2.1 b.2.2.1 b.2.2.2 now)) db.sources
  { db with sources := seeded }

/-- Code-point lexicographic order on strings, the order Python uses to
compare the `name` strings in `results.sort(key=lambda x: x.get("name", ""))`. -/
def lexLe : List Nat → List Nat → Bool
  | [], _ => true
  | _ :: _, [] => false
  | a :: as, b :: bs => if a < b then true else if b < a then false else lexLe as bs

/-- Stable insertion of a source into a name-sorted list. -/
def insertByName (p : String × SourceRec) :
    List (String × SourceRec) → List (String × SourceRec)
  | [] => [p]
  | q :: rest =>
      if lexLe (p.2.name.data.map Char.toNat) (q.2.name.data.map Char.toNat) then
        p :: q :: rest
      else q :: insertByName p rest

/-- Embeds `results.sort(key=lambda x: x.get("name", ""))` (a stable
sort by name). -/
def sortByName : List (String × SourceRec) → List (String × SourceRec)
  | [] => []
  | p :: rest => insertByName p (sortByName rest)

/-- Embeds `list_sources`: seeds the builtin sources when the collection
is empty, then returns all sources sorted by name (each paired with its
document id), together with the resulting store. -/
def list_sources (db : DB) (now : Nat) : List (String × SourceRec) × DB :=
  let db1 := if db.sources.isEmpty then seed_builtin_sources db now else db
  (sortByName db1.sources, db1)

/-- Embeds `is_in_cooldown`: `False` when `cooldown_until` is unset,
otherwise `time.time() < cooldown_until`. The stored `status` field is
not consulted. -/
def is_in_cooldown (source : SourceRec) (now : Nat) : Bool :=
  match source.cooldown_until with
  | none => false
  | some c => decide (now < c)

/-- Embeds `_enter_cooldown`: set `status = "cooldown"`, record the
error and its time, and set `cooldown_until = now + hours * 3600` where
`hours` is the source's `cooldown_hours` (defaulting to
`DEFAULT_COOLDOWN_HOURS` when absent). -/
def enter_cooldown (db : DB) (source_id error_message : String) (now : Nat) : DB :=
  let hours :=
    match db.sources.lookup source_id with
    | none => DEFAULT_COOLDOWN_HOURS
    | some src => src.cooldown_hours.getD DEFAULT_COOLDOWN_HOURS
  { db with sources := updateDocWith db.sources source_id (fun s =>
      { s with status := "cooldown", last_error := some now,
               error_message := some error_message,
               cooldown_until := some (now + hours * 3600) }) }

/-- Embeds `reset_cooldown`: clear cooldown, set status back to healthy. -/
def reset_cooldown (db : DB) (source_id : String) : Bool × DB :=
  match db.sources.lookup source_id with
  | none => (false, db)
  | some _ =>
      (true, { db with sources := updateDocWith db.sources source_id (fun s =>
          { s with status := "healthy", cooldown_until := none, error_message := none }) })

/-- Embeds `disable_source`: only the `status` field is written. -/
def disable_source (db : DB) (source_id : String) : Bool × DB :=
  match db.sources.lookup source_id with
  | none => (false, db)
  | some _ =>
      (true, { db with sources := updateDocWith db.sources source_id (fun s =>
          { s with status := "disabled" }) })

/-- Embeds `enable_source`. -/
def enable_source (db : DB) (source_id : String) : Bool × DB :=
  match db.sources.lookup source_id with
  | none => (false, db)
  | some _ =>
      (true, { db with sources := updateDocWith db.sources source_id (fun s =>
          { s with status := "healthy", cooldown_until := none, error_message := none }) })

/-- Embeds `_source_id_to_name`. -/
def source_id_to_name (source_id : String) : String :=
  (([("yfbm", "YFBM"), ("foodaid", "FoodAidFoundation"),
     ("lostfood", "TheLostFoodProject"), ("kechara", "KecharaSoupKitchen")] :
      List (String × String)).lookup source_id).getD source_id

/-- Embeds `_refresh_source_entries`: stamp every foodbank entry whose
`source_name` matches the source and return how many were stamped. -/
def refresh_source_entries (db : DB) (source_id : String) (now : Nat) : Nat × DB :=
  let nm := source_id_to_name source_id
  ((db.foodbanks.filter (fun f => f.source_name == nm)).length,
   { db with foodbanks := db.foodbanks.map (fun f =>
       if f.source_name == nm then
         { f with last_refreshed := some now, updated_at := some now }
       else f) })

/-- Outcome of the `httpx` GET in `fetch_source`: either a response with
a status code, or a raised exception with its message. -/
inductive ProbeOutcome where
  | response (status_code : Nat)
  | exn (message : String)
deriving DecidableEq

/-- The dictionary `{"success": ..., "new_count": ..., "error": ...}`
returned by `fetch_source`. -/
structure FetchResult where
  success : Bool
  new_count : Nat
  error : Option String
deriving DecidableEq

/-- The error message `fetch_source` records for a failed probe:
`str(e)` for an exception, `f"HTTP {status} from {url}"` for a
non-success response. -/
def probeError (probe : ProbeOutcome) (url : String) : String :=
  match probe with
  | .exn e => e
  | .response c => "HTTP " ++ toString c ++ " from " ++ url

/-- Embeds `fetch_source`. -/
def fetch_source (db : DB) (source_id : String) (probe : ProbeOutcome) (now : Nat) :
    FetchResult × DB :=
  match db.sources.lookup source_id with
  | none => (⟨false, 0, some "Source not found"⟩, db)
  | some source =>
      if source.status == "disabled" then
        (⟨false, 0, some "Source is disabled"⟩, db)
      else
        match probe with
        | .exn e => (⟨false, 0, some e⟩, enter_cooldown db source_id e now)
        | .response code =>
            if 400 ≤ code then
              let err := probeError (.response code) source.url
              (⟨false, 0, some err⟩, enter_cooldown db source_id err now)
            else
              let rc := refresh_source_entries db source_id now
              (⟨true, rc.1, none⟩,
               { rc.2 with sources := updateDocWith rc.2.sources source_id (fun s =>
                   { s with status := "healthy", last_success := some now,
                            cooldown_until := none, error_message := none }) })

/-! ### Store lookup/update lemmas -/

lemma lookup_updateDocWith_self (store : List (String × SourceRec)) (id : String)
    (f : SourceRec → SourceRec) :
    (updateDocWith store id f).lookup id = (store.lookup id).map f := by
  induction store with
  | nil => rfl
  | cons p rest ih =>
      rcases p with ⟨k, v⟩
      by_cases h : k = id
      · subst h
        simp [updateDocWith, List.lookup]
      · have hb : (k == id) = false := by simpa using h
        have hb' : (id == k) = false := by simpa using Ne.symm h
        simpa [updateDocWith, List.lookup, hb, hb'] using ih

lemma lookup_updateDocWith_ne (store : List (String × SourceRec)) (id j : String)
    (f : SourceRec → SourceRec) (h : j ≠ id) :
    (updateDocWith store id f).lookup j = store.lookup j := by
  induction store with
  | nil => rfl
  | cons p rest ih =>
      rcases p with ⟨k, v⟩
      by_cases hpj : k = j
      · subst hpj
        have h1 : (k == id) = false := by simpa using fun hc => h (by rw [hc])
        simp [updateDocWith, List.lookup, h1]
      · have h2 : (j == k) = false := by simpa using Ne.symm hpj
        simpa [updateDocWith, List.lookup, h2] using ih

/-- `_refresh_source_entries` never touches the sources collection. -/
lemma refresh_sources_eq (db : DB) (source_id : String) (now : Nat) :
    (refresh_source_entries db source_id now).2.sources = db.sources := rfl

/-! ### Claim C10 -/

/-- C10: `fetch_source` fails fast, for every probe outcome, on a
missing source (`"Source not found"`, store untouched) and on a disabled
source (`"Source is disabled"`, store untouched) — a direct fetch can
never change a disabled source's record. -/
theorem fetch_source_fail_fast (db : DB) (source_id : String)
    (probe : ProbeOutcome) (now : Nat) :
    (db.sources.lookup source_id = none →
      fetch_source db source_id probe now = (⟨false, 0, some "Source not found"⟩, db)) ∧
    (∀ src, db.sources.lookup source_id = some src → src.status = "disabled" →
      fetch_source db source_id probe now = (⟨false, 0, some "Source is disabled"⟩, db)) := by
  constructor
  · intro h
    unfold fetch_source
    rw [h]
  · intro src h hd
    unfold fetch_source
    rw [h]
    have hb : (src.status == "disabled") = true := by simpa using hd
    simp [hb]

/-- A healthy source document used in concrete registry scenarios. -/
def healthy_src : SourceRec :=
  { name := "B Food Bank", url := "https://b.example.org", country := "MY",
    status := "healthy", last_success := none, last_error := none,
    error_message := none, cooldown_until := none,
    cooldown_hours := some 6, created_at := some 0 }

/-- A disabled source document used in concrete registry scenarios. -/
def disabled_src : SourceRec :=
  { name := "A Food Bank", url := "https://a.example.org", country := "MY",
    status := "disabled", last_success := none, last_error := none,
    error_message := none, cooldown_until := none,
    cooldown_hours := some 6, created_at := some 0 }

/-- Witness for C10: a store holding only a disabled source `"s1"`:
fetching `"s0"` reports `Source not found`, fetching `"s1"` reports
`Source is disabled`, and both leave the store untouched. -/
theorem fetch_source_fail_fast_witness :
    ((DB.mk [("s1", disabled_src)] []).sources.lookup "s0" = none ∧
      fetch_source (DB.mk [("s1", disabled_src)] []) "s0" (ProbeOutcome.exn "down") 0
        = (⟨false, 0, some "Source not found"⟩, DB.mk [("s1", disabled_src)] [])) ∧
    ((DB.mk [("s1", disabled_src)] []).sources.lookup "s1" = some disabled_src ∧
      disabled_src.status = "disabled" ∧
      fetch_source (DB.mk [("s1", disabled_src)] []) "s1" (ProbeOutcome.exn "down") 0
        = (⟨false, 0, some "Source is disabled"⟩, DB.mk [("s1", disabled_src)] [])) :=
  ⟨⟨by decide,
    (fetch_source_fail_fast (DB.mk [("s1", disabled_src)] []) "s0"
        (ProbeOutcome.exn "down") 0).1 (by decide)⟩,
   ⟨by decide, by decide,
    (fetch_source_fail_fast (DB.mk [("s1", disabled_src)] []) "s1"
        (ProbeOutcome.exn "down") 0).2 disabled_src (by decide) (by decide)⟩⟩

/-! ### Claim C8 -/

/-- C8: a failing probe (exception or HTTP status ≥ 400) on an existing,
non-disabled source returns `success = false` and leaves the source in
cooldown: `status = "cooldown"`, `last_error = now`, the probe's error
message recorded, `cooldown_until = now + cooldown_hours * 3600` (with
the 6-hour default); a `reset_cooldown` immediately after returns true,
sets `status = "healthy"` and clears `cooldown_until` and
`error_message`, regardless of the timer. -/
theorem fetch_failure_enters_cooldown_reset_clears (db : DB) (id : String)
    (src : SourceRec) (probe : ProbeOutcome) (now : Nat)
    (hsrc : db.sources.lookup id = some src)
    (hnd : src.status ≠ "disabled")
    (hfail : (∃ e, probe = ProbeOutcome.exn e) ∨
             (∃ c, probe = ProbeOutcome.response c ∧ 400 ≤ c)) :
    (fetch_source db id probe now).1 = ⟨false, 0, some (probeError probe src.url)⟩ ∧
    (fetch_source db id probe now).2.sources.lookup id
      = some { src with status := "cooldown", last_error := some now, error_message := some (probeError probe src.url), cooldown_until := some (now + src.cooldown_hours.getD DEFAULT_COOLDOWN_HOURS * 3600) } ∧
    (reset_cooldown (fetch_source db id probe now).2 id).1 = true ∧
    (reset_cooldown (fetch_source db id probe now).2 id).2.sources.lookup id
      = some { src with status := "healthy", last_error := some now, error_message := none, cooldown_until := none } := by
  have hb : (src.status == "disabled") = false := by simpa using hnd
  have hfetch : fetch_source db id probe now
      = (⟨false, 0, some (probeError probe src.url)⟩,
         enter_cooldown db id (probeError probe src.url) now) := by
    rcases hfail with ⟨e, rfl⟩ | ⟨c, rfl, hc⟩
    · unfold fetch_source
      rw [hsrc]
      simp [hb, probeError]
    · unfold fetch_source
      rw [hsrc]
      simp [hb, hc]
  have hcool : (enter_cooldown db id (probeError probe src.url) now).sources.lookup id
      = some { src with status := "cooldown", last_error := some now, error_message := some (probeError probe src.url), cooldown_until := some (now + src.cooldown_hours.getD DEFAULT_COOLDOWN_HOURS * 3600) } := by
    unfold enter_cooldown
    rw [hsrc]
    simp only [lookup_updateDocWith_self, hsrc]
    rfl
  refine ⟨by rw [hfetch], by rw [hfetch]; exact hcool, ?_, ?_⟩
  · rw [hfetch]
    simp only [reset_cooldown, hcool]
  · rw [hfetch]
    simp only [reset_cooldown, hcool]
    simp only [lookup_updateDocWith_self, hcool]
    rfl

/-- Witness for C8: a one-source store whose probe raises; the source
enters cooldown (`cooldown_until = 0 + 6 * 3600`) and an immediate
`reset_cooldown` restores it to healthy. -/
theorem fetch_failure_enters_cooldown_reset_clears_witness :
    (DB.mk [("s2", healthy_src)] []).sources.lookup "s2" = some healthy_src ∧
    healthy_src.status ≠ "disabled" ∧
    (fetch_source (DB.mk [("s2", healthy_src)] []) "s2" (ProbeOutcome.exn "down") 0).1
        = ⟨false, 0, some (probeError (ProbeOutcome.exn "down") healthy_src.url)⟩ ∧
    (fetch_source (DB.mk [("s2", healthy_src)] []) "s2" (ProbeOutcome.exn "down") 0).2.sources.lookup "s2"
        = some { healthy_src with status := "cooldown", last_error := some 0, error_message := some (probeError (ProbeOutcome.exn "down") healthy_src.url), cooldown_until := some (0 + healthy_src.cooldown_hours.getD DEFAULT_COOLDOWN_HOURS * 3600) } ∧
    (reset_cooldown (fetch_source (DB.mk [("s2", healthy_src)] []) "s2"
        (ProbeOutcome.exn "down") 0).2 "s2").1 = true ∧
    (reset_cooldown (fetch_source (DB.mk [("s2", healthy_src)] []) "s2"
        (ProbeOutcome.exn "down") 0).2 "s2").2.sources.lookup "s2"
        = some { healthy_src with status := "healthy", last_error := some 0, error_message := none, cooldown_until := none } := by
  have h := fetch_failure_enters_cooldown_reset_clears (DB.mk [("s2", healthy_src)] [])
    "s2" healthy_src (ProbeOutcome.exn "down") 0 (by decide) (by decide)
    (Or.inl ⟨"down", rfl⟩)
  exact ⟨by decide, by decide, h.1, h.2.1, h.2.2.1, h.2.2.2⟩

/-! ### Scheduled scrape (src/backend/app/services/foodbank_service.py) -/

/-- The `for source in sources` loop of `scrape_and_update`: skip
disabled sources, skip sources in cooldown, fetch the rest and
accumulate `result.get("new_count", 0)`. -/
def scrapeLoop (probe : String → ProbeOutcome) (now : Nat) :
    List (String × SourceRec) → Nat → DB → Nat × DB
  | [], total, db => (total, db)
  | p :: rest, total, db =>
      if p.2.status == "disabled" then scrapeLoop probe now rest total db
      else if is_in_cooldown p.2 now then scrapeLoop probe now rest total db
      else
        let r := fetch_source db p.1 (probe p.1) now
        scrapeLoop probe now rest (total + r.1.new_count) r.2

/-- Embeds `scrape_and_update`: list all sources (seeding when empty),
skip disabled and cooling-down sources, fetch each remaining source and
return the total refreshed count. -/
def scrape_and_update (db : DB) (probe : String → ProbeOutcome) (now : Nat) : Nat × DB :=
  let ls := list_sources db now
  scrapeLoop probe now ls.1 0 ls.2

/-! ### Sorting and lookup lemmas for the snapshot -/

lemma insertByName_perm (p : String × SourceRec) :
    ∀ l : List (String × SourceRec), (insertByName p l).Perm (p :: l) := by
  intro l
  induction l with
  | nil => exact List.Perm.refl _
  | cons q rest ih =>
      cases h : lexLe (p.2.name.data.map Char.toNat) (q.2.name.data.map Char.toNat) with
      | true =>
          have he : insertByName p (q :: rest) = p :: q :: rest := by
            simp [insertByName, h]
          rw [he]
      | false =>
          have he : insertByName p (q :: rest) = q :: insertByName p rest := by
            simp [insertByName, h]
          rw [he]
          exact (ih.cons q).trans (List.Perm.swap p q rest)

lemma sortByName_perm : ∀ l : List (String × SourceRec), (sortByName l).Perm l := by
  intro l
  induction l with
  | nil => exact List.Perm.refl _
  | cons p rest ih =>
      exact (insertByName_perm p (sortByName rest)).trans (ih.cons p)

lemma lookup_eq_of_mem_nodup :
    ∀ l : List (String × SourceRec), (l.map Prod.fst).Nodup →
      ∀ (id : String) (src : SourceRec), (id, src) ∈ l → l.lookup id = some src := by
  intro l
  induction l with
  | nil => intro _ id src h; cases h
  | cons p rest ih =>
      intro hn id src hmem
      rcases p with ⟨k, v⟩
      rw [List.map_cons, List.nodup_cons] at hn
      rcases List.mem_cons.mp hmem with heq | hrest
      · have h1 : id = k := congrArg Prod.fst heq
        have h2 : src = v := congrArg Prod.snd heq
        subst h1; subst h2
        simp [List.lookup]
      · have hk : k ≠ id := by
          intro hc
          subst hc
          exact hn.1 (List.mem_map.mpr ⟨(k, src), hrest, rfl⟩)
        have hb : (id == k) = false := by simpa using Ne.symm hk
        have := ih hn.2 id src hrest
        simpa [List.lookup, hb] using this

/-- A fetch of one source never modifies any other source's record. -/
lemma fetch_source_lookup_other (db : DB) (fid jid : String)
    (probe : ProbeOutcome) (now : Nat) (h : jid ≠ fid) :
    (fetch_source db fid probe now).2.sources.lookup jid = db.sources.lookup jid := by
  unfold fetch_source
  cases hlook : db.sources.lookup fid with
  | none => rfl
  | some src =>
      cases hd : src.status == "disabled" with
      | true => simp [hd]
      | false =>
          cases probe with
          | exn e =>
              simp only [hd, Bool.false_eq_true, if_false, enter_cooldown]
              exact lookup_updateDocWith_ne _ _ _ _ h
          | response code =>
              by_cases hc : 400 ≤ code
              · simp only [hd, Bool.false_eq_true, if_false, hc, if_true, enter_cooldown]
                exact lookup_updateDocWith_ne _ _ _ _ h
              · simp only [hd, Bool.false_eq_true, if_false, hc]
                exact lookup_updateDocWith_ne _ _ _ _ h

/-- The scrape loop leaves every source it skips untouched: if every
snapshot entry carrying a given id is disabled or in cooldown, that id's
record after the loop is its record before it. -/
lemma scrapeLoop_lookup (probe : String → ProbeOutcome) (now : Nat) (id : String) :
    ∀ (l : List (String × SourceRec)) (total : Nat) (db : DB),
      (∀ p ∈ l, p.1 = id → (p.2.status = "disabled" ∨ is_in_cooldown p.2 now = true)) →
      (scrapeLoop probe now l total db).2.sources.lookup id = db.sources.lookup id := by
  intro l
  induction l with
  | nil => intro total db _; rfl
  | cons p rest ih =>
      intro total db hl
      have hrest : ∀ q ∈ rest, q.1 = id →
          (q.2.status = "disabled" ∨ is_in_cooldown q.2 now = true) :=
        fun q hq => hl q (List.mem_cons_of_mem p hq)
      cases hd : p.2.status == "disabled" with
      | true =>
          have he : scrapeLoop probe now (p :: rest) total db
              = scrapeLoop probe now rest total db := by
            simp [scrapeLoop, hd]
          rw [he]
          exact ih total db hrest
      | false =>
          cases hc : is_in_cooldown p.2 now with
          | true =>
              have he : scrapeLoop probe now (p :: rest) total db
                  = scrapeLoop probe now rest total db := by
                simp [scrapeLoop, hd, hc]
              rw [he]
              exact ih total db hrest
          | false =>
              have hne : p.1 ≠ id := by
                intro hc2
                rcases hl p (List.mem_cons_self p rest) hc2 with hx | hx
                · rw [hx] at hd; simp at hd
                · rw [hx] at hc; cases hc
              have he : scrapeLoop probe now (p :: rest) total db
                  = scrapeLoop probe now rest
                      (total + (fetch_source db p.1 (probe p.1) now).1.new_count)
                      (fetch_source db p.1 (probe p.1) now).2 := by
                simp [scrapeLoop, hd, hc]
              rw [he, ih _ _ hrest]
              exact fetch_source_lookup_other db p.1 id (probe p.1) now (Ne.symm hne)

/-- The snapshot returned by `list_sources` is a permutation of the
stored (post-seed) collection. -/
lemma listSources_snapshot_perm (db : DB) (now : Nat) :
    ((list_sources db now).1).Perm ((list_sources db now).2).sources :=
  sortByName_perm _

/-- Seeding and listing keep the document ids duplicate-free. -/
lemma listSources_keys_nodup (db : DB) (now : Nat)
    (h : (db.sources.map Prod.fst).Nodup) :
    (((list_sources db now).2).sources.map Prod.fst).Nodup := by
  unfold list_sources
  cases he : db.sources.isEmpty with
  | false => simpa [he] using h
  | true =>
      have hnil : db.sources = [] := by simpa using he
      have hseed : (seed_builtin_sources db now).sources.map Prod.fst
          = ["yfbm", "foodaid", "lostfood", "kechara"] := by
        simp only [seed_builtin_sources, BUILTIN_SOURCES, hnil]
        rfl
      simp only [he, if_true]
      rw [hseed]
      decide

/-! ### Claim C9 -/

/-- C9: a scheduler run lists all sources and skips every disabled and
every cooling-down source, leaving their records exactly as they were
after listing (which only seeds an empty store); and, concretely, with
two sources — one disabled, one healthy whose probe fails — the run
returns 0, the disabled source's record is untouched and the healthy
source ends in cooldown. -/
theorem scrape_skips_disabled_and_cooldown :
    (∀ (db : DB) (probe : String → ProbeOutcome) (now : Nat) (id : String) (src : SourceRec),
      (db.sources.map Prod.fst).Nodup →
      (id, src) ∈ (list_sources db now).1 →
      (src.status = "disabled" ∨ is_in_cooldown src now = true) →
      ((scrape_and_update db probe now).2.sources.lookup id
          = ((list_sources db now).2).sources.lookup id ∧
        ((list_sources db now).2).sources.lookup id = some src)) ∧
    ((scrape_and_update (DB.mk [("s1", disabled_src), ("s2", healthy_src)] [])
        (fun _ => ProbeOutcome.exn "down") 0).1 = 0 ∧
      (scrape_and_update (DB.mk [("s1", disabled_src), ("s2", healthy_src)] [])
        (fun _ => ProbeOutcome.exn "down") 0).2.sources.lookup "s1" = some disabled_src ∧
      ((scrape_and_update (DB.mk [("s1", disabled_src), ("s2", healthy_src)] [])
        (fun _ => ProbeOutcome.exn "down") 0).2.sources.lookup "s2").map SourceRec.status
        = some "cooldown") := by
  constructor
  · intro db probe now id src hnodup hmem hskip
    have hkeys := listSources_keys_nodup db now hnodup
    have hperm := listSources_snapshot_perm db now
    have hmem2 : (id, src) ∈ ((list_sources db now).2).sources := hperm.mem_iff.mp hmem
    have hlook : ((list_sources db now).2).sources.lookup id = some src :=
      lookup_eq_of_mem_nodup _ hkeys id src hmem2
    have hsnap : ∀ p ∈ (list_sources db now).1, p.1 = id →
        (p.2.status = "disabled" ∨ is_in_cooldown p.2 now = true) := by
      intro p hp hpid
      rcases p with ⟨k, v⟩
      have hkid : k = id := hpid
      subst hkid
      have hpmem : (k, v) ∈ ((list_sources db now).2).sources := hperm.mem_iff.mp hp
      have hlook2 : ((list_sources db now).2).sources.lookup k = some v :=
        lookup_eq_of_mem_nodup _ hkeys k v hpmem
      have hv : v = src := by
        have := hlook2.symm.trans hlook
        simpa using this
      subst hv
      exact hskip
    have hloop := scrapeLoop_lookup probe now id (list_sources db now).1 0
      (list_sources db now).2 hsnap
    exact ⟨hloop, hlook⟩
  · refine ⟨by decide, by decide, by decide⟩

/-- Witness for C9: the disabled source `"s1"` of the two-source store
is skipped and its record is exactly the listed one. -/
theorem scrape_skips_disabled_and_cooldown_witness :
    ((DB.mk [("s1", disabled_src), ("s2", healthy_src)] []).sources.map Prod.fst).Nodup ∧
    ("s1", disabled_src) ∈
      (list_sources (DB.mk [("s1", disabled_src), ("s2", healthy_src)] []) 0).1 ∧
    disabled_src.status = "disabled" ∧
    ((scrape_and_update (DB.mk [("s1", disabled_src), ("s2", healthy_src)] [])
        (fun _ => ProbeOutcome.exn "down") 0).2.sources.lookup "s1"
      = ((list_sources (DB.mk [("s1", disabled_src), ("s2", healthy_src)] []) 0).2).sources.lookup "s1" ∧
      ((list_sources (DB.mk [("s1", disabled_src), ("s2", healthy_src)] []) 0).2).sources.lookup "s1"
      = some disabled_src) :=
  ⟨by decide, by decide, rfl,
   scrape_skips_disabled_and_cooldown.1
     (DB.mk [("s1", disabled_src), ("s2", healthy_src)] [])
     (fun _ => ProbeOutcome.exn "down") 0 "s1" disabled_src
     (by decide) (by decide) (Or.inl rfl)⟩

/-! ### Claim C7: registry reachability and the cooldown invariant -/

/-- The registry's public operations, each with the clock reading(s) and
probe outcome(s) of the call. -/
inductive RegistryOp where
  | listS (now : Nat)
  | fetch (source_id : String) (probe : ProbeOutcome) (now : Nat)
  | reset (source_id : String)
  | enable (source_id : String)
  | disable (source_id : String)
  | scrape (probe : String → ProbeOutcome) (now : Nat)

/-- State reached by one registry operation. -/
def applyOp (db : DB) : RegistryOp → DB
  | .listS now => (list_sources db now).2
  | .fetch id probe now => (fetch_source db id probe now).2
  | .reset id => (reset_cooldown db id).2
  | .enable id => (enable_source db id).2
  | .disable id => (disable_source db id).2
  | .scrape probe now => (scrape_and_update db probe now).2

/-- State reached by a sequence of registry operations. -/
def runOps (db : DB) (ops : List RegistryOp) : DB := ops.foldl applyOp db

/-- The part of the cooldown invariant the code maintains: a source
whose stored status is `"cooldown"` always has `cooldown_until` set. -/
def StoreCooldownInv (store : List (String × SourceRec)) : Prop :=
  ∀ p ∈ store, p.2.status = "cooldown" → p.2.cooldown_until.isSome = true

lemma storeInv_updateDocWith (store : List (String × SourceRec)) (id : String)
    (f : SourceRec → SourceRec)
    (hst : StoreCooldownInv store)
    (hf : ∀ rec, (f rec).status = "cooldown" → (f rec).cooldown_until.isSome = true) :
    StoreCooldownInv (updateDocWith store id f) := by
  intro p hp
  rw [updateDocWith, List.mem_map] at hp
  obtain ⟨q, hq, hpq⟩ := hp
  subst hpq
  cases h : q.1 == id with
  | true => simpa [h] using hf q.2
  | false => simpa [h] using hst q hq

lemma storeInv_setDoc (store : List (String × SourceRec)) (id : String)
    (rec : SourceRec)
    (hst : StoreCooldownInv store)
    (hrec : rec.status = "cooldown" → rec.cooldown_until.isSome = true) :
    StoreCooldownInv (setDoc store id rec) := by
  intro p hp
  unfold setDoc at hp
  cases hany : store.any (fun q => q.1 == id) with
  | true =>
      rw [hany, if_pos rfl, List.mem_map] at hp
      obtain ⟨q, hq, hpq⟩ := hp
      subst hpq
      cases h : q.1 == id with
      | true => simpa [h] using hrec
      | false => simpa [h] using hst q hq
  | false =>
      rw [hany, if_neg (by decide), List.mem_append] at hp
      rcases hp with hp | hp
      · exact hst p hp
      · have : p = (id, rec) := by simpa using hp
        subst this
        exact hrec

lemma storeInv_seedFold (now : Nat) :
    ∀ (bs : List (String × String × String × String)) (st : List (String × SourceRec)),
      StoreCooldownInv st →
      StoreCooldownInv
        (bs.foldl (fun s b => setDoc s b.1 (seedRecord b.2.1 b.2.2.1 b.2.2.2 now)) st) := by
  intro bs
  induction bs with
  | nil => intro st h; exact h
  | cons b rest ih =>
      intro st h
      simp only [List.foldl_cons]
      refine ih _ (storeInv_setDoc _ _ _ h ?_)
      intro hc
      simp [seedRecord] at hc

lemma storeInv_enter_cooldown (db : DB) (id msg : String) (now : Nat)
    (h : StoreCooldownInv db.sources) :
    StoreCooldownInv (enter_cooldown db id msg now).sources := by
  simp only [enter_cooldown]
  exact storeInv_updateDocWith _ _ _ h (fun rec _ => rfl)

lemma storeInv_reset (db : DB) (id : String)
    (h : StoreCooldownInv db.sources) :
    StoreCooldownInv (reset_cooldown db id).2.sources := by
  cases hl : db.sources.lookup id with
  | none => simpa [reset_cooldown, hl] using h
  | some src =>
      simp only [reset_cooldown, hl]
      exact storeInv_updateDocWith _ _ _ h (fun rec hc => by simp at hc)

lemma storeInv_enable (db : DB) (id : String)
    (h : StoreCooldownInv db.sources) :
    StoreCooldownInv (enable_source db id).2.sources := by
  cases hl : db.sources.lookup id with
  | none => simpa [enable_source, hl] using h
  | some src =>
      simp only [enable_source, hl]
      exact storeInv_updateDocWith _ _ _ h (fun rec hc => by simp at hc)

lemma storeInv_disable (db : DB) (id : String)
    (h : StoreCooldownInv db.sources) :
    StoreCooldownInv (disable_source db id).2.sources := by
  cases hl : db.sources.lookup id with
  | none => simpa [disable_source, hl] using h
  | some src =>
      simp only [disable_source, hl]
      exact storeInv_updateDocWith _ _ _ h (fun rec hc => by simp at hc)

lemma storeInv_fetch (db : DB) (id : String) (probe : ProbeOutcome) (now : Nat)
    (h : StoreCooldownInv db.sources) :
    StoreCooldownInv (fetch_source db id probe now).2.sources := by
  cases hl : db.sources.lookup id with
  | none => simpa [fetch_source, hl] using h
  | some src =>
      cases hd : src.status == "disabled" with
      | true => simpa [fetch_source, hl, hd] using h
      | false =>
          cases probe with
          | exn e =>
              simp only [fetch_source, hl, hd, Bool.false_eq_true, if_false]
              exact storeInv_enter_cooldown db id e now h
          | response code =>
              by_cases hc : 400 ≤ code
              · simp only [fetch_source, hl, hd, Bool.false_eq_true, if_false, hc, if_true]
                exact storeInv_enter_cooldown db id _ now h
              · simp only [fetch_source, hl, hd, Bool.false_eq_true, if_false, hc]
                exact storeInv_updateDocWith _ _ _ h (fun rec hcc => by simp at hcc)

lemma storeInv_scrapeLoop (probe : String → ProbeOutcome) (now : Nat) :
    ∀ (l : List (String × SourceRec)) (total : Nat) (db : DB),
      StoreCooldownInv db.sources →
      StoreCooldownInv (scrapeLoop probe now l total db).2.sources := by
  intro l
  induction l with
  | nil => intro total db h; exact h
  | cons p rest ih =>
      intro total db h
      cases hd : p.2.status == "disabled" with
      | true =>
          have he : scrapeLoop probe now (p :: rest) total db
              = scrapeLoop probe now rest total db := by
            simp [scrapeLoop, hd]
          rw [he]
          exact ih total db h
      | false =>
          cases hc : is_in_cooldown p.2 now with
          | true =>
              have he : scrapeLoop probe now (p :: rest) total db
                  = scrapeLoop probe now rest total db := by
                simp [scrapeLoop, hd, hc]
              rw [he]
              exact ih total db h
          | false =>
              have he : scrapeLoop probe now (p :: rest) total db
                  = scrapeLoop probe now rest
                      (total + (fetch_source db p.1 (probe p.1) now).1.new_count)
                      (fetch_source db p.1 (probe p.1) now).2 := by
                simp [scrapeLoop, hd, hc]
              rw [he]
              exact ih _ _ (storeInv_fetch db p.1 (probe p.1) now h)

lemma storeInv_listS (db : DB) (now : Nat)
    (h : StoreCooldownInv db.sources) :
    StoreCooldownInv ((list_sources db now).2).sources := by
  unfold list_sources
  cases he : db.sources.isEmpty with
  | false => simpa [he] using h
  | true =>
      simp only [he, if_true]
      exact storeInv_seedFold now BUILTIN_SOURCES db.sources h

lemma storeInv_scrape (db : DB) (probe : String → ProbeOutcome) (now : Nat)
    (h : StoreCooldownInv db.sources) :
    StoreCooldownInv (scrape_and_update db probe now).2.sources := by
  unfold scrape_and_update
  exact storeInv_scrapeLoop probe now _ 0 _ (storeInv_listS db now h)

lemma storeInv_applyOp (db : DB) (op : RegistryOp)
    (h : StoreCooldownInv db.sources) :
    StoreCooldownInv (applyOp db op).sources := by
  cases op with
  | listS now => exact storeInv_listS db now h
  | fetch id probe now => exact storeInv_fetch db id probe now h
  | reset id => exact storeInv_reset db id h
  | enable id => exact storeInv_enable db id h
  | disable id => exact storeInv_disable db id h
  | scrape probe now => exact storeInv_scrape db probe now h

lemma storeInv_runOps (ops : List RegistryOp) :
    ∀ db : DB, StoreCooldownInv db.sources →
      StoreCooldownInv (runOps db ops).sources := by
  induction ops with
  | nil => intro db h; exact h
  | cons op rest ih =>
      intro db h
      simp only [runOps, List.foldl_cons]
      exact ih _ (storeInv_applyOp db op h)

/-- C7 counterexample: starting from an empty store, seed (via listing),
fail a fetch of `"yfbm"` at time 0, then disable it. The reached record
has `cooldown_until = 21600`, set and in the future at observation time
0, yet `status = "disabled" ≠ "cooldown"` — refuting the claimed
equivalence `status = "cooldown" ⟺ cooldown_until set and in the
future`. -/
theorem cooldown_status_iff_counterexample :
    ((runOps (DB.mk [] []) [RegistryOp.listS 0,
        RegistryOp.fetch "yfbm" (ProbeOutcome.exn "connect error") 0,
        RegistryOp.disable "yfbm"]).sources.lookup "yfbm").map
          (fun s => (s.status, s.cooldown_until))
      = some ("disabled", some 21600) ∧
    (0 : Nat) < 21600 ∧ ("disabled" : String) ≠ "cooldown" :=
  ⟨by decide, by decide, by decide⟩

/-- C7 (amended): in every store reachable through the registry's
operations, `status = "cooldown"` implies `cooldown_until` is set (the
converse fails — e.g. disabling keeps `cooldown_until` — and the timer
may have elapsed); and `is_in_cooldown` derives eligibility from
`cooldown_until` against the current time only: it is true exactly when
`cooldown_until` is set and strictly in the future, is independent of
the stored `status` field, and is false whenever `cooldown_until` is
unset or has elapsed. -/
theorem cooldown_status_derived :
    (∀ (fbs : List Foodbank) (ops : List RegistryOp),
      ∀ p ∈ (runOps (DB.mk [] fbs) ops).sources,
        p.2.status = "cooldown" → p.2.cooldown_until.isSome = true) ∧
    (∀ (s : SourceRec) (now : Nat),
      is_in_cooldown s now = true ↔ ∃ c, s.cooldown_until = some c ∧ now < c) ∧
    (∀ (s s' : SourceRec) (now : Nat), s.cooldown_until = s'.cooldown_until →
      is_in_cooldown s now = is_in_cooldown s' now) ∧
    (∀ (s : SourceRec) (now : Nat), s.cooldown_until = none →
      is_in_cooldown s now = false) ∧
    (∀ (s : SourceRec) (now c : Nat), s.cooldown_until = some c → c ≤ now →
      is_in_cooldown s now = false) := by
  refine ⟨?_, ?_, ?_, ?_, ?_⟩
  · intro fbs ops
    exact storeInv_runOps ops (DB.mk [] fbs) (fun p hp => absurd hp (List.not_mem_nil p))
  · intro s now
    cases hcu : s.cooldown_until with
    | none => simp [is_in_cooldown, hcu]
    | some c => simp [is_in_cooldown, hcu]
  · intro s s' now h
    unfold is_in_cooldown
    rw [h]
  · intro s now h
    unfold is_in_cooldown
    rw [h]
  · intro s now c h hc
    unfold is_in_cooldown
    rw [h]
    simpa using Nat.not_lt.mpr hc

/-- The `"yfbm"` record after seeding at time 0 and a failed fetch at
time 0. -/
def yfbm_cooldown_rec : SourceRec :=
  { name := "Yayasan Food Bank Malaysia", url := "https://www.yfbm.org.my",
    country := "MY", status := "cooldown", last_success := none,
    last_error := some 0, error_message := some "connect error",
    cooldown_until := some 21600, cooldown_hours := some DEFAULT_COOLDOWN_HOURS,
    created_at := some 0 }

/-- Witness for C7: the invariant instantiated at a concrete reachable
cooldown record, and the derived-eligibility facts at concrete inputs. -/
theorem cooldown_status_derived_witness :
    (("yfbm", yfbm_cooldown_rec) ∈ (runOps (DB.mk [] []) [RegistryOp.listS 0,
        RegistryOp.fetch "yfbm" (ProbeOutcome.exn "connect error") 0]).sources ∧
      yfbm_cooldown_rec.status = "cooldown" ∧
      yfbm_cooldown_rec.cooldown_until.isSome = true) ∧
    (healthy_src.cooldown_until = none ∧ is_in_cooldown healthy_src 5 = false) ∧
    (yfbm_cooldown_rec.cooldown_until = some 21600 ∧ 21600 ≤ 30000 ∧
      is_in_cooldown yfbm_cooldown_rec 30000 = false) :=
  ⟨⟨by decide, rfl,
    cooldown_status_derived.1 []
      [RegistryOp.listS 0, RegistryOp.fetch "yfbm" (ProbeOutcome.exn "connect error") 0]
      ("yfbm", yfbm_cooldown_rec) (by decide) rfl⟩,
   ⟨rfl, cooldown_status_derived.2.2.2.1 healthy_src 5 rfl⟩,
   ⟨rfl, by decide,
    cooldown_status_derived.2.2.2.2 yfbm_cooldown_rec 30000 21600 rfl (by decide)⟩⟩

end GroceryApp
